import Mathlib

/-!
# Todo-Fast-App: the task-list screen (`frontend/todo-fast-app/App.js`)

A verification development for the `TodoList` component.  The component
keeps six pieces of React state, derives the displayed list from two of
them, and has five asynchronous functions that talk to the Task Store with
`fetch`.  An asynchronous function is embedded as the part that runs up to
its `await` and the part that runs once the reply is there; a configuration
records the React state, the requests still awaiting a reply and the
requests sent so far.
-/

namespace TodoList

/-! ## Data model -/

/-- A task record as the screen reads it from the List payload: `task.id`,
`task.title`, `task.completed`.  `rest` holds every further own property of
the record (name and JSON text of the value), which the object spread in
`toggleComplete` copies unread. -/
structure Task where
  id : Nat
  title : String
  completed : Bool
  rest : List (String × String)
deriving DecidableEq, Repr

/-- A JSON object handed to `JSON.stringify` as a request body.  `id` is
`none` when the object literal has no `id` property. -/
structure Body where
  id : Option Nat
  title : String
  completed : Bool
  rest : List (String × String)
deriving DecidableEq, Repr

/-- The properties of a task record, as a JSON object (`{ ...task }`). -/
def Body.ofTask (t : Task) : Body :=
  { id := some t.id, title := t.title, completed := t.completed, rest := t.rest }

inductive Method where
  | GET | POST | PUT | DELETE
deriving DecidableEq, Repr

/-- The two resources the screen addresses. -/
inductive Url where
  /-- The collection. -/
  | todos
  /-- One task of the collection, by id. -/
  | todo (id : Nat)
deriving DecidableEq, Repr

def BASE_URL : String := "https://todo-fast-app.onrender.com"

/-- The address as the template literals spell it: the collection is
BASE_URL followed by /todos/ and a task is BASE_URL followed by /todos/
and the id. -/
def Url.render : Url → String
  | .todos => BASE_URL ++ "/todos/"
  | .todo id => BASE_URL ++ "/todos/" ++ toString id

/-- One call of `fetch(url, { method, body })`. -/
structure Request where
  method : Method
  url : Url
  body : Option Body
deriving DecidableEq, Repr

/-- What the screen reads of a response: `response.ok`, and the value of
`response.json()`, which is a task array when the Task Store answers a List
request (`none` when `json()` throws). -/
structure Response where
  ok : Bool
  json : Option (List Task)
deriving DecidableEq, Repr

/-- The React state of `TodoList` (the six `useState` cells). -/
structure State where
  tasks : List Task
  filter : String
  darkMode : Bool
  editingId : Option Nat
  editText : String
  editingText : String
deriving DecidableEq, Repr

/-- The initial values of the `useState` cells. -/
def State.initial : State :=
  { tasks := [], filter := "all", darkMode := false, editingId := none,
    editText := "", editingText := "" }

/-! ## `String.prototype.trim` -/

/-- White space and line terminators of ECMAScript, the characters
`trim()` removes from both ends. -/
def isWhiteSpace (ch : Char) : Bool :=
  let n := ch.toNat
  n == 0x09 || n == 0x0A || n == 0x0B || n == 0x0C || n == 0x0D || n == 0x20 ||
  n == 0xA0 || n == 0x1680 || (0x2000 ≤ n && n ≤ 0x200A) || n == 0x2028 ||
  n == 0x2029 || n == 0x202F || n == 0x205F || n == 0x3000 || n == 0xFEFF

def jsTrim (s : String) : String :=
  String.mk ((s.data.dropWhile isWhiteSpace).reverse.dropWhile isWhiteSpace).reverse

/-- Truthiness of a string: every string but the empty one. -/
def truthy (s : String) : Bool := s != ""

/-! ## The displayed list -/

/-- The `filteredTasks` constant of a render. -/
def filteredTasks (s : State) : List Task :=
  s.tasks.filter fun task =>
    if s.filter == "completed" then task.completed
    else if s.filter == "pending" then !task.completed
    else true

/-! ## Asynchronous functions -/

/-- The asynchronous function that is suspended at its `await`. -/
inductive Awaiting where
  | fetchTasks | addTask | updateTask | toggleComplete | deleteTask
deriving DecidableEq, Repr

/-- The screen between two events. -/
structure Config where
  /-- The React state. -/
  ui : State
  /-- The requests awaiting a reply, oldest first, each with the function
  that resumes on the reply. -/
  inflight : List (Request × Awaiting)
  /-- Every request sent so far, oldest first. -/
  sent : List Request
  /-- The calls of `console.error`. -/
  logged : Nat
  /-- The errors no handler caught (a rejected promise of a handler). -/
  uncaught : Nat
deriving DecidableEq, Repr

/-- A screen in state `s` with nothing sent and nothing awaited. -/
def Config.idle (s : State) : Config :=
  { ui := s, inflight := [], sent := [], logged := 0, uncaught := 0 }

/-- The call `await fetch(...)`: the request goes out and `k` is suspended on it. -/
def Config.fetch (req : Request) (k : Awaiting) (c : Config) : Config :=
  { c with inflight := c.inflight ++ [(req, k)], sent := c.sent ++ [req] }

/-- The List request, `fetch(BASE_URL/todos/)`. -/
def listRequest : Request := { method := .GET, url := .todos, body := none }

/-- The function `fetchTasks`, up to `await fetch(...)`. -/
def fetchTasks (c : Config) : Config :=
  c.fetch listRequest .fetchTasks

/-- The function `fetchTasks`, from the reply on: `setTasks(data)`, or the `catch`
branch when `fetch` rejects (`none`) or `json()` throws. -/
def fetchTasks.resume (reply : Option Response) (c : Config) : Config :=
  match reply with
  | some response =>
    match response.json with
    | some data => { c with ui := { c.ui with tasks := data } }
    | none => { c with logged := c.logged + 1 }
  | none => { c with logged := c.logged + 1 }

/-- The function `addTask`, up to `await fetch(...)`. -/
def addTask (c : Config) : Config :=
  if truthy (jsTrim c.ui.editText) then
    let newTask : Body := { id := none, title := c.ui.editText, completed := false, rest := [] }
    c.fetch { method := .POST, url := .todos, body := some newTask } .addTask
  else c

/-- The function `addTask`, from the reply on.  A rejected `fetch` is not caught. -/
def addTask.resume (reply : Option Response) (c : Config) : Config :=
  match reply with
  | some response =>
    if response.ok then
      let c := fetchTasks c
      { c with ui := { c.ui with editText := "" } }
    else c
  | none => { c with uncaught := c.uncaught + 1 }

/-- The call `updateTask(id)`, up to `await fetch(...)`.  When `tasks.find` yields
`undefined`, reading `.completed` throws before anything is sent. -/
def updateTask (id : Nat) (c : Config) : Config :=
  match c.ui.tasks.find? (fun task => task.id == id) with
  | some found =>
    let updatedTask : Body :=
      { id := none, title := c.ui.editingText, completed := found.completed, rest := [] }
    c.fetch { method := .PUT, url := .todo id, body := some updatedTask } .updateTask
  | none => { c with uncaught := c.uncaught + 1 }

/-- The function `updateTask`, from the reply on. -/
def updateTask.resume (reply : Option Response) (c : Config) : Config :=
  match reply with
  | some response =>
    if response.ok then
      let c := fetchTasks c
      { c with ui := { c.ui with editingId := none, editingText := "" } }
    else c
  | none => { c with uncaught := c.uncaught + 1 }

/-- The call `toggleComplete(id)`, up to `await fetch(...)`.  When `tasks.find`
yields `undefined`, reading `.completed` throws before anything is sent. -/
def toggleComplete (id : Nat) (c : Config) : Config :=
  match c.ui.tasks.find? (fun task => task.id == id) with
  | some taskToUpdate =>
    let updatedTask : Body :=
      { Body.ofTask taskToUpdate with completed := !taskToUpdate.completed }
    c.fetch { method := .PUT, url := .todo id, body := some updatedTask } .toggleComplete
  | none => { c with uncaught := c.uncaught + 1 }

/-- The function `toggleComplete`, from the reply on. -/
def toggleComplete.resume (reply : Option Response) (c : Config) : Config :=
  match reply with
  | some response => if response.ok then fetchTasks c else c
  | none => { c with uncaught := c.uncaught + 1 }

/-- The call `deleteTask(id)`, up to `await fetch(...)`. -/
def deleteTask (id : Nat) (c : Config) : Config :=
  c.fetch { method := .DELETE, url := .todo id, body := none } .deleteTask

/-- The function `deleteTask`, from the reply on. -/
def deleteTask.resume (reply : Option Response) (c : Config) : Config :=
  match reply with
  | some response => if response.ok then fetchTasks c else c
  | none => { c with uncaught := c.uncaught + 1 }

/-- The suspended function `k` runs on with the reply. -/
def resume (k : Awaiting) (reply : Option Response) (c : Config) : Config :=
  match k with
  | .fetchTasks => fetchTasks.resume reply c
  | .addTask => addTask.resume reply c
  | .updateTask => updateTask.resume reply c
  | .toggleComplete => toggleComplete.resume reply c
  | .deleteTask => deleteTask.resume reply c

/-- The replies arrive one after the other, each for the oldest request
still awaiting one; a reply that finds nothing awaited ends the run. -/
def settle : List (Option Response) → Config → Config
  | [], c => c
  | reply :: replies, c =>
    match c.inflight with
    | [] => c
    | (_, k) :: waiting => settle replies (resume k reply { c with inflight := waiting })

/-! ## Events of the screen -/

/-- What happens to the screen: a control is used, or a reply arrives. -/
inductive Event where
  /-- The draft input changes: `onChangeText={setEditText}`. -/
  | changeDraft (text : String)
  /-- The add control: `onPress={addTask}`. -/
  | pressAdd
  /-- The switch: `setDarkMode(!darkMode)`. -/
  | switchDarkMode
  /-- A filter control: `setFilter(type)`. -/
  | pressFilter (type : String)
  /-- The edit control of a task: `setEditingId(task.id)` and
  `setEditingText(task.title)`. -/
  | pressEdit (task : Task)
  /-- The edit input changes: `onChangeText={setEditingText}`. -/
  | changeEditing (text : String)
  /-- The edit input loses focus: `onBlur={() => updateTask(task.id)}`. -/
  | blurEditing (id : Nat)
  /-- The save control: `updateTask(task.id)`. -/
  | pressSave (id : Nat)
  /-- The complete control: `toggleComplete(task.id)`. -/
  | pressToggle (id : Nat)
  /-- The delete control: `deleteTask(task.id)`. -/
  | pressDelete (id : Nat)
  /-- The reply to the request at position `i` of the awaited ones arrives. -/
  | reply (i : Nat) (response : Option Response)
deriving DecidableEq, Repr

/-- One event, on the screen as it is. -/
def step (c : Config) : Event → Config
  | .changeDraft text => { c with ui := { c.ui with editText := text } }
  | .pressAdd => addTask c
  | .switchDarkMode => { c with ui := { c.ui with darkMode := !c.ui.darkMode } }
  | .pressFilter type => { c with ui := { c.ui with filter := type } }
  | .pressEdit task =>
    { c with ui := { c.ui with editingId := some task.id, editingText := task.title } }
  | .changeEditing text => { c with ui := { c.ui with editingText := text } }
  | .blurEditing id => updateTask id c
  | .pressSave id => updateTask id c
  | .pressToggle id => toggleComplete id c
  | .pressDelete id => deleteTask id c
  | .reply i response =>
    match c.inflight.get? i with
    | some (_, k) => resume k response { c with inflight := c.inflight.eraseIdx i }
    | none => c

/-- The screen once mounted: the initial state, and the effect hook has
called `fetchTasks`. -/
def mount : Config := fetchTasks (Config.idle State.initial)

/-- The screen after the events `es`, oldest first. -/
def run (es : List Event) : Config := es.foldl step mount

/-- The event `e` on screen `c` is the arrival of a List response whose
payload is `data`: the reply answers the List request of a suspended
`fetchTasks` and its body parses to `data`. -/
def ListArrival (c : Config) (e : Event) (data : List Task) : Prop :=
  ∃ i response, e = .reply i (some response) ∧
    c.inflight.get? i = some (listRequest, .fetchTasks) ∧ response.json = some data

/-! ## The Task Store -/

/-- Modelled from the spec: the Update operation of the Task Store, which
is not part of this component.  The record of the addressed id is replaced
with the PUT body; the other records stay as they are. -/
def storePut (store : List Task) (id : Nat) (body : Body) : List Task :=
  store.map fun record =>
    if record.id == id then
      { id := body.id.getD id, title := body.title, completed := body.completed,
        rest := body.rest }
    else record

/-! ## Predicates on screens -/

/-- Every suspended `fetchTasks` awaits the reply to the List request. -/
def FetchesList (c : Config) : Prop :=
  ∀ p ∈ c.inflight, p.2 = Awaiting.fetchTasks → p.1 = listRequest

/-- The handler run that ended in `c` was without effect on the screen in
state `s`: the state is `s` in every field, no List request is among the
requests sent, and nothing is awaited. -/
def NoEffect (s : State) (c : Config) : Prop :=
  c.ui = s ∧ listRequest ∉ c.sent ∧ c.inflight = []

/-! ## Auxiliary facts -/

theorem dropWhile_eq_nil_of_all {α : Type} (p : α → Bool) :
    ∀ l : List α, (∀ a ∈ l, p a = true) → l.dropWhile p = []
  | [], _ => rfl
  | a :: l, h => by
    have ha : p a = true := h a (List.mem_cons_self a l)
    have hl : l.dropWhile p = [] :=
      dropWhile_eq_nil_of_all p l fun b hb => h b (List.mem_cons_of_mem a hb)
    simp [List.dropWhile, ha, hl]

theorem jsTrim_of_blank (s : String) (h : ∀ ch ∈ s.data, isWhiteSpace ch = true) :
    jsTrim s = "" := by
  unfold jsTrim
  rw [dropWhile_eq_nil_of_all isWhiteSpace s.data h]
  rfl

theorem truthy_jsTrim_of_blank (s : String) (h : ∀ ch ∈ s.data, isWhiteSpace ch = true) :
    truthy (jsTrim s) = false := by
  rw [jsTrim_of_blank s h]
  rfl

theorem exists_visible_of_truthy (s : String) (h : truthy (jsTrim s) = true) :
    ∃ ch ∈ s.data, isWhiteSpace ch = false := by
  by_contra hno
  have hall : ∀ ch ∈ s.data, isWhiteSpace ch = true := by
    intro ch hch
    by_contra hws
    exact hno ⟨ch, hch, by simpa using hws⟩
  rw [truthy_jsTrim_of_blank s hall] at h
  exact Bool.false_ne_true h

theorem settle_of_inflight_nil (replies : List (Option Response)) (c : Config)
    (h : c.inflight = []) : settle replies c = c := by
  cases replies with
  | nil => rfl
  | cons reply replies => simp [settle, h]

/-- A screen that awaits only the reply to one `fetchTasks` either still
awaits it or has resumed `fetchTasks` on it. -/
theorem settle_of_fetching (replies : List (Option Response)) (c : Config) (req : Request)
    (h : c.inflight = [(req, .fetchTasks)]) :
    settle replies c = c ∨
      ∃ reply, settle replies c = fetchTasks.resume reply { c with inflight := [] } := by
  cases replies with
  | nil => exact Or.inl rfl
  | cons reply replies =>
    refine Or.inr ⟨reply, ?_⟩
    simp only [settle, h, resume]
    apply settle_of_inflight_nil
    unfold fetchTasks.resume
    split
    · split <;> rfl
    · rfl

theorem fetchTasks_resume_sent (reply : Option Response) (c : Config) :
    (fetchTasks.resume reply c).sent = c.sent := by
  unfold fetchTasks.resume
  split
  · split <;> rfl
  · rfl

theorem fetchTasks_resume_inflight (reply : Option Response) (c : Config) :
    (fetchTasks.resume reply c).inflight = c.inflight := by
  unfold fetchTasks.resume
  split
  · split <;> rfl
  · rfl

theorem fetchTasks_resume_uncaught (reply : Option Response) (c : Config) :
    (fetchTasks.resume reply c).uncaught = c.uncaught := by
  unfold fetchTasks.resume
  split
  · split <;> rfl
  · rfl

theorem fetchTasks_resume_editText (reply : Option Response) (c : Config) :
    (fetchTasks.resume reply c).ui.editText = c.ui.editText := by
  unfold fetchTasks.resume
  split
  · split <;> rfl
  · rfl

/-- The requests of a screen that awaits only the reply to one
`fetchTasks` are all sent: what arrives adds none. -/
theorem settle_of_fetching_sent (replies : List (Option Response)) (c : Config) (req : Request)
    (h : c.inflight = [(req, .fetchTasks)]) : (settle replies c).sent = c.sent := by
  rcases settle_of_fetching replies c req h with h1 | ⟨reply, h1⟩
  · rw [h1]
  · rw [h1, fetchTasks_resume_sent]

theorem settle_of_fetching_editText (replies : List (Option Response)) (c : Config)
    (req : Request) (h : c.inflight = [(req, .fetchTasks)]) :
    (settle replies c).ui.editText = c.ui.editText := by
  rcases settle_of_fetching replies c req h with h1 | ⟨reply, h1⟩
  · rw [h1]
  · rw [h1, fetchTasks_resume_editText]

/-- A handler that awaits the reply to its mutation request gets a
response that is not ok: nothing more is sent and the screen is as before. -/
theorem settle_rejected (s : State) (req : Request) (k : Awaiting) (hk : k ≠ .fetchTasks)
    (j : Option (List Task)) (replies : List (Option Response)) :
    settle (some ⟨false, j⟩ :: replies) ((Config.idle s).fetch req k)
      = { Config.idle s with sent := [req] } := by
  have h : resume k (some ⟨false, j⟩)
      { (Config.idle s).fetch req k with inflight := [] }
      = { Config.idle s with sent := [req] } := by
    cases k <;> first | exact absurd rfl hk | rfl
  simp only [settle, Config.fetch, Config.idle, List.nil_append] at h ⊢
  rw [h]
  exact settle_of_inflight_nil replies _ rfl

/-- A handler that awaits the reply to its mutation request gets a
response that is ok: the List request follows and no other. -/
theorem settle_accepted_sent (s : State) (req : Request) (k : Awaiting)
    (hk : k ≠ .fetchTasks) (j : Option (List Task)) (replies : List (Option Response)) :
    (settle (some ⟨true, j⟩ :: replies) ((Config.idle s).fetch req k)).sent
      = [req, listRequest] := by
  simp only [settle, Config.fetch, Config.idle, List.nil_append]
  cases k with
  | fetchTasks => exact absurd rfl hk
  | addTask => exact settle_of_fetching_sent replies _ listRequest rfl
  | updateTask => exact settle_of_fetching_sent replies _ listRequest rfl
  | toggleComplete => exact settle_of_fetching_sent replies _ listRequest rfl
  | deleteTask => exact settle_of_fetching_sent replies _ listRequest rfl

/-- A handler that awaits the reply to its mutation request has sent that
request, and at most the List request after it, whatever arrives. -/
theorem settle_mutation_sent (s : State) (req : Request) (k : Awaiting)
    (hk : k ≠ .fetchTasks) (replies : List (Option Response)) :
    (settle replies ((Config.idle s).fetch req k)).sent = [req] ∨
    (settle replies ((Config.idle s).fetch req k)).sent = [req, listRequest] := by
  cases replies with
  | nil => exact Or.inl rfl
  | cons reply replies =>
    cases reply with
    | none =>
      left
      have h : resume k none { (Config.idle s).fetch req k with inflight := [] }
          = { Config.idle s with sent := [req], uncaught := 1 } := by
        cases k <;> first | exact absurd rfl hk | rfl
      simp only [settle, Config.fetch, Config.idle, List.nil_append] at h ⊢
      rw [h, settle_of_inflight_nil replies _ rfl]
    | some response =>
      obtain ⟨ok, j⟩ := response
      cases ok with
      | false =>
        left
        rw [settle_rejected s req k hk j replies]
      | true => exact Or.inr (settle_accepted_sent s req k hk j replies)

theorem updateTask_of_find (s : State) (id : Nat) (t : Task)
    (h : s.tasks.find? (fun task => task.id == id) = some t) :
    updateTask id (Config.idle s)
      = (Config.idle s).fetch ⟨.PUT, .todo id, some ⟨none, s.editingText, t.completed, []⟩⟩
          .updateTask := by
  simp [updateTask, Config.idle, h]

theorem toggleComplete_of_find (s : State) (id : Nat) (t : Task)
    (h : s.tasks.find? (fun task => task.id == id) = some t) :
    toggleComplete id (Config.idle s)
      = (Config.idle s).fetch
          ⟨.PUT, .todo id, some { Body.ofTask t with completed := !t.completed }⟩
          .toggleComplete := by
  simp [toggleComplete, Config.idle, h]

/-- The record that answers to `id` in the store after an Update is the
PUT body, when the store had a record of that id. -/
theorem find_storePut (id : Nat) (body : Body) (hid : body.id.getD id = id) :
    ∀ store : List Task,
      (storePut store id body).find? (fun task => task.id == id)
        = (store.find? (fun task => task.id == id)).map
            fun _ => ⟨id, body.title, body.completed, body.rest⟩
  | [] => rfl
  | r :: store => by
    have ih := find_storePut id body hid store
    unfold storePut at ih ⊢
    by_cases hr : r.id = id
    · simp [List.find?, hr, hid]
    · have hb : (r.id == id) = false := by simp [hr]
      simp only [List.map_cons, List.find?, hb, Bool.false_eq_true, if_false]
      exact ih

theorem find_isSome_of_mem (id : Nat) :
    ∀ store : List Task, (∃ r ∈ store, r.id = id) →
      ∃ r, store.find? (fun task => task.id == id) = some r
  | [], h => by
    obtain ⟨r, hr, _⟩ := h
    exact absurd hr (List.not_mem_nil r)
  | a :: store, h => by
    by_cases ha : a.id = id
    · exact ⟨a, by simp [List.find?, ha]⟩
    · obtain ⟨r, hr, hrid⟩ := h
      have hmem : r ∈ store := by
        rcases List.mem_cons.mp hr with h1 | h1
        · exact absurd (h1 ▸ hrid) ha
        · exact h1
      obtain ⟨r', hr'⟩ := find_isSome_of_mem id store ⟨r, hmem, hrid⟩
      have hb : (a.id == id) = false := by simp [ha]
      exact ⟨r', by simp only [List.find?, hb, hr']⟩

theorem id_of_find (id : Nat) (t : Task) :
    ∀ l : List Task, l.find? (fun task => task.id == id) = some t → t.id = id
  | [], h => by simp at h
  | a :: l, h => by
    by_cases ha : a.id = id
    · simp [List.find?, ha] at h
      exact h ▸ ha
    · have hb : (a.id == id) = false := by simp [ha]
      simp only [List.find?, hb] at h
      exact id_of_find id t l h

theorem storePut_storePut (id : Nat) (body : Body) (hid : body.id.getD id = id)
    (store : List Task) :
    storePut (storePut store id body) id body = storePut store id body := by
  unfold storePut
  rw [List.map_map]
  apply List.map_congr_left
  intro r _
  by_cases hr : r.id = id
  · simp [hr, hid]
  · simp [hr]

theorem fetchesList_fetch (c : Config) (req : Request) (k : Awaiting)
    (h : FetchesList c) (hk : k = .fetchTasks → req = listRequest) :
    FetchesList (c.fetch req k) := by
  intro p hp hp2
  simp only [Config.fetch, List.mem_append, List.mem_singleton] at hp
  rcases hp with hp | hp
  · exact h p hp hp2
  · subst hp
    exact hk hp2

theorem fetchesList_of_same_inflight (c c' : Config) (h : FetchesList c)
    (hin : c'.inflight = c.inflight) : FetchesList c' := by
  intro p hp hp2
  exact h p (hin ▸ hp) hp2

theorem fetchesList_fetchTasks (c : Config) (h : FetchesList c) :
    FetchesList (fetchTasks c) :=
  fetchesList_fetch c listRequest .fetchTasks h fun _ => rfl

theorem fetchesList_resume (k : Awaiting) (reply : Option Response) (c : Config)
    (h : FetchesList c) : FetchesList (resume k reply c) := by
  cases k with
  | fetchTasks =>
    exact fetchesList_of_same_inflight c _ h (fetchTasks_resume_inflight reply c)
  | addTask =>
    cases reply with
    | none => exact fetchesList_of_same_inflight c _ h rfl
    | some response =>
      obtain ⟨ok, j⟩ := response
      cases ok with
      | false => exact h
      | true => exact fetchesList_of_same_inflight _ _ (fetchesList_fetchTasks c h) rfl
  | updateTask =>
    cases reply with
    | none => exact fetchesList_of_same_inflight c _ h rfl
    | some response =>
      obtain ⟨ok, j⟩ := response
      cases ok with
      | false => exact h
      | true => exact fetchesList_of_same_inflight _ _ (fetchesList_fetchTasks c h) rfl
  | toggleComplete =>
    cases reply with
    | none => exact fetchesList_of_same_inflight c _ h rfl
    | some response =>
      obtain ⟨ok, j⟩ := response
      cases ok with
      | false => exact h
      | true => exact fetchesList_fetchTasks c h
  | deleteTask =>
    cases reply with
    | none => exact fetchesList_of_same_inflight c _ h rfl
    | some response =>
      obtain ⟨ok, j⟩ := response
      cases ok with
      | false => exact h
      | true => exact fetchesList_fetchTasks c h

theorem fetchesList_addTask (c : Config) (h : FetchesList c) : FetchesList (addTask c) := by
  unfold addTask
  split
  · exact fetchesList_fetch c _ .addTask h (by simp)
  · exact h

theorem fetchesList_updateTask (id : Nat) (c : Config) (h : FetchesList c) :
    FetchesList (updateTask id c) := by
  unfold updateTask
  split
  · exact fetchesList_fetch c _ .updateTask h (by simp)
  · exact fetchesList_of_same_inflight c _ h rfl

theorem fetchesList_toggleComplete (id : Nat) (c : Config) (h : FetchesList c) :
    FetchesList (toggleComplete id c) := by
  unfold toggleComplete
  split
  · exact fetchesList_fetch c _ .toggleComplete h (by simp)
  · exact fetchesList_of_same_inflight c _ h rfl

theorem fetchesList_step (c : Config) (e : Event) (h : FetchesList c) :
    FetchesList (step c e) := by
  cases e with
  | changeDraft text => exact fetchesList_of_same_inflight c _ h rfl
  | pressAdd => exact fetchesList_addTask c h
  | switchDarkMode => exact fetchesList_of_same_inflight c _ h rfl
  | pressFilter type => exact fetchesList_of_same_inflight c _ h rfl
  | pressEdit task => exact fetchesList_of_same_inflight c _ h rfl
  | changeEditing text => exact fetchesList_of_same_inflight c _ h rfl
  | blurEditing id => exact fetchesList_updateTask id c h
  | pressSave id => exact fetchesList_updateTask id c h
  | pressToggle id => exact fetchesList_toggleComplete id c h
  | pressDelete id => exact fetchesList_fetch c _ .deleteTask h (by simp)
  | reply i response =>
    simp only [step]
    split
    · apply fetchesList_resume
      intro p hp hp2
      exact h p (List.mem_of_mem_eraseIdx hp) hp2
    · exact h

theorem run_concat (es : List Event) (e : Event) : run (es ++ [e]) = step (run es) e := by
  simp [run, List.foldl_append]

theorem fetchesList_run (es : List Event) : FetchesList (run es) := by
  induction es using List.reverseRecOn with
  | nil =>
    intro p hp hp2
    have : p = (listRequest, Awaiting.fetchTasks) := by
      simpa [run, mount, fetchTasks, Config.fetch, Config.idle] using hp
    rw [this]
  | append_singleton es e ih =>
    rw [run_concat]
    exact fetchesList_step _ e ih

theorem resume_tasks (k : Awaiting) (hk : k ≠ .fetchTasks) (reply : Option Response)
    (c : Config) : (resume k reply c).ui.tasks = c.ui.tasks := by
  cases k with
  | fetchTasks => exact absurd rfl hk
  | addTask =>
    cases reply with
    | none => rfl
    | some response => obtain ⟨ok, j⟩ := response; cases ok <;> rfl
  | updateTask =>
    cases reply with
    | none => rfl
    | some response => obtain ⟨ok, j⟩ := response; cases ok <;> rfl
  | toggleComplete =>
    cases reply with
    | none => rfl
    | some response => obtain ⟨ok, j⟩ := response; cases ok <;> rfl
  | deleteTask =>
    cases reply with
    | none => rfl
    | some response => obtain ⟨ok, j⟩ := response; cases ok <;> rfl

/-- One event leaves the collection as it is, unless it is the arrival of
a List response, whose payload is then the collection. -/
theorem step_tasks (c : Config) (e : Event) (h : FetchesList c) :
    (step c e).ui.tasks = c.ui.tasks ∨ ListArrival c e (step c e).ui.tasks := by
  cases e with
  | changeDraft text => exact Or.inl rfl
  | pressAdd =>
    left
    simp only [step, addTask]
    split <;> rfl
  | switchDarkMode => exact Or.inl rfl
  | pressFilter type => exact Or.inl rfl
  | pressEdit task => exact Or.inl rfl
  | changeEditing text => exact Or.inl rfl
  | blurEditing id =>
    left
    simp only [step, updateTask]
    split <;> rfl
  | pressSave id =>
    left
    simp only [step, updateTask]
    split <;> rfl
  | pressToggle id =>
    left
    simp only [step, toggleComplete]
    split <;> rfl
  | pressDelete id => exact Or.inl rfl
  | reply i response =>
    cases hget : c.inflight.get? i with
    | none =>
      left
      simp only [step, hget]
    | some p =>
      obtain ⟨req, k⟩ := p
      have hstep : step c (.reply i response)
          = resume k response { c with inflight := c.inflight.eraseIdx i } := by
        simp only [step, hget]
      rw [hstep]
      by_cases hk : k = .fetchTasks
      · subst hk
        have hreq : req = listRequest := h _ (List.get?_mem hget) rfl
        subst hreq
        cases response with
        | none => exact Or.inl rfl
        | some r =>
          cases hj : r.json with
          | none =>
            left
            simp [resume, fetchTasks.resume, hj]
          | some data =>
            right
            refine ⟨i, r, rfl, hget, ?_⟩
            simp [resume, fetchTasks.resume, hj]
      · exact Or.inl (resume_tasks k hk response _)

/-! ## The displayed list -/

/-- C1: the displayed list is the whole collection under the filter "all",
the completed tasks in their order under "completed" and the tasks that are
not completed in their order under "pending"; it is a function of the
collection and the filter alone (two states that agree on both display the
same list), and as a value of the render it writes no state. -/
theorem filteredTasks_spec :
    (∀ s : State, s.filter = "all" → filteredTasks s = s.tasks) ∧
    (∀ s : State, s.filter = "completed" →
      filteredTasks s = s.tasks.filter fun t => t.completed) ∧
    (∀ s : State, s.filter = "pending" →
      filteredTasks s = s.tasks.filter fun t => !t.completed) ∧
    (∀ s s' : State, s.tasks = s'.tasks → s.filter = s'.filter →
      filteredTasks s = filteredTasks s') := by
  refine ⟨?_, ?_, ?_, ?_⟩
  · intro s h
    simp [filteredTasks, h]
  · intro s h
    simp [filteredTasks, h]
  · intro s h
    simp [filteredTasks, h]
  · intro s s' ht hf
    simp [filteredTasks, ht, hf]

theorem filteredTasks_spec_witness :
    filteredTasks { State.initial with
        tasks := [⟨1, "milk", false, []⟩, ⟨2, "eggs", true, []⟩, ⟨3, "tea", false, []⟩] }
      = [⟨1, "milk", false, []⟩, ⟨2, "eggs", true, []⟩, ⟨3, "tea", false, []⟩] ∧
    filteredTasks { State.initial with
        tasks := [⟨1, "milk", false, []⟩, ⟨2, "eggs", true, []⟩, ⟨3, "tea", false, []⟩],
        filter := "completed" }
      = [⟨2, "eggs", true, []⟩] ∧
    filteredTasks { State.initial with
        tasks := [⟨1, "milk", false, []⟩, ⟨2, "eggs", true, []⟩, ⟨3, "tea", false, []⟩],
        filter := "pending" }
      = [⟨1, "milk", false, []⟩, ⟨3, "tea", false, []⟩] ∧
    filteredTasks { State.initial with tasks := [⟨2, "eggs", true, []⟩], darkMode := true }
      = filteredTasks { State.initial with tasks := [⟨2, "eggs", true, []⟩], editText := "x" } :=
  ⟨(filteredTasks_spec.1 _ rfl).trans rfl,
   (filteredTasks_spec.2.1 _ rfl).trans (by decide),
   (filteredTasks_spec.2.2.1 _ rfl).trans (by decide),
   filteredTasks_spec.2.2.2 _ _ rfl rfl⟩

/-! ## Create -/

/-- C2: with a draft that is empty or all white space, `addTask` sends no
request and leaves the screen as it was (the collection, the draft and
every other field), whatever replies are on offer. -/
theorem addTask_blank (s : State) (h : ∀ ch ∈ s.editText.data, isWhiteSpace ch = true)
    (replies : List (Option Response)) :
    (settle replies (addTask (Config.idle s))).sent = [] ∧
    (settle replies (addTask (Config.idle s))).ui = s ∧
    settle replies (addTask (Config.idle s)) = Config.idle s := by
  have h1 : addTask (Config.idle s) = Config.idle s := by
    simp [addTask, Config.idle, truthy_jsTrim_of_blank s.editText h]
  have h2 : settle replies (addTask (Config.idle s)) = Config.idle s := by
    rw [h1]
    exact settle_of_inflight_nil replies _ rfl
  rw [h2]
  exact ⟨rfl, rfl, rfl⟩

theorem addTask_blank_witness :
    (settle [some ⟨true, some [⟨1, "milk", false, []⟩]⟩]
        (addTask (Config.idle { State.initial with editText := "  " }))).sent = [] ∧
    (settle [some ⟨true, some [⟨1, "milk", false, []⟩]⟩]
        (addTask (Config.idle { State.initial with editText := "  " }))).ui
      = { State.initial with editText := "  " } ∧
    settle [some ⟨true, some [⟨1, "milk", false, []⟩]⟩]
        (addTask (Config.idle { State.initial with editText := "  " }))
      = Config.idle { State.initial with editText := "  " } :=
  addTask_blank { State.initial with editText := "  " } (by decide) _

/-- C9: with a draft whose trimmed text is not empty, `addTask` sends one
POST to the collection, whose body has no id, `completed = false` and the
draft as title, a title with a character that is not white space; whatever
arrives, that POST stays the only one, followed by at most the List
request; and on a response that is ok the draft is the empty string. -/
theorem addTask_posts (s : State) (h : jsTrim s.editText ≠ "") :
    (addTask (Config.idle s)).sent
      = [⟨.POST, .todos, some ⟨none, s.editText, false, []⟩⟩] ∧
    (∃ ch ∈ s.editText.data, isWhiteSpace ch = false) ∧
    (∀ replies : List (Option Response),
      (settle replies (addTask (Config.idle s))).sent
          = [⟨.POST, .todos, some ⟨none, s.editText, false, []⟩⟩] ∨
      (settle replies (addTask (Config.idle s))).sent
          = [⟨.POST, .todos, some ⟨none, s.editText, false, []⟩⟩, listRequest]) ∧
    (∀ (j : Option (List Task)) (replies : List (Option Response)),
      (settle (some ⟨true, j⟩ :: replies) (addTask (Config.idle s))).ui.editText = "") := by
  have ht : truthy (jsTrim s.editText) = true := by simpa [truthy] using h
  have h1 : addTask (Config.idle s)
      = (Config.idle s).fetch ⟨.POST, .todos, some ⟨none, s.editText, false, []⟩⟩ .addTask := by
    simp [addTask, ht, Config.idle]
  refine ⟨?_, exists_visible_of_truthy s.editText ht, ?_, ?_⟩
  · rw [h1]; rfl
  · intro replies
    rw [h1]
    exact settle_mutation_sent s _ .addTask (by decide) replies
  · intro j replies
    rw [h1]
    simp only [settle, Config.fetch, Config.idle, List.nil_append, resume, addTask.resume,
      fetchTasks, if_true]
    exact (settle_of_fetching_editText replies _ listRequest rfl).trans rfl

theorem addTask_posts_witness :
    (addTask (Config.idle { State.initial with editText := " milk " })).sent
      = [⟨.POST, .todos, some ⟨none, " milk ", false, []⟩⟩] ∧
    (settle [some ⟨true, none⟩, some ⟨true, some [⟨1, " milk ", false, []⟩]⟩]
      (addTask (Config.idle { State.initial with editText := " milk " }))).ui.editText = "" :=
  ⟨(addTask_posts { State.initial with editText := " milk " } (by decide)).1,
   (addTask_posts { State.initial with editText := " milk " } (by decide)).2.2.2 _ _⟩

/-! ## Toggle-complete and commit-edit -/

/-- C4: for the record `t` that `id` identifies in the collection (the one
`tasks.find` yields), `toggleComplete(id)` sends one PUT to the task of that
id whose body is the whole record with `completed` negated and every other
property as in `t`; whatever arrives, that PUT stays the only one, followed
by at most the List request.  On the one task 1 "milk", not completed, the
PUT carries title "milk" and completed true, and once List has returned the
task as completed the "pending" filter displays nothing. -/
theorem toggleComplete_puts_whole_record :
    (∀ (s : State) (id : Nat) (t : Task),
      s.tasks.find? (fun task => task.id == id) = some t →
      (toggleComplete id (Config.idle s)).sent
          = [⟨.PUT, .todo id, some ⟨some t.id, t.title, !t.completed, t.rest⟩⟩] ∧
      ∀ replies : List (Option Response),
        (settle replies (toggleComplete id (Config.idle s))).sent
            = [⟨.PUT, .todo id, some ⟨some t.id, t.title, !t.completed, t.rest⟩⟩] ∨
        (settle replies (toggleComplete id (Config.idle s))).sent
            = [⟨.PUT, .todo id, some ⟨some t.id, t.title, !t.completed, t.rest⟩⟩,
               listRequest]) ∧
    (toggleComplete 1
        (Config.idle { State.initial with tasks := [⟨1, "milk", false, []⟩] })).sent
      = [⟨.PUT, .todo 1, some ⟨some 1, "milk", true, []⟩⟩] ∧
    filteredTasks
      { (settle [some ⟨true, none⟩, some ⟨true, some [⟨1, "milk", true, []⟩]⟩]
          (toggleComplete 1
            (Config.idle { State.initial with tasks := [⟨1, "milk", false, []⟩] }))).ui
        with filter := "pending" } = [] := by
  refine ⟨?_, by decide, by decide⟩
  intro s id t h
  rw [toggleComplete_of_find s id t h]
  exact ⟨rfl, fun replies => settle_mutation_sent s _ .toggleComplete (by decide) replies⟩

theorem toggleComplete_puts_whole_record_witness :
    (toggleComplete 2
        (Config.idle { State.initial with
          tasks := [⟨1, "milk", false, []⟩, ⟨2, "eggs", true, [("note", "3")]⟩] })).sent
      = [⟨.PUT, .todo 2, some ⟨some 2, "eggs", false, [("note", "3")]⟩⟩] :=
  (toggleComplete_puts_whole_record.1
    { State.initial with
      tasks := [⟨1, "milk", false, []⟩, ⟨2, "eggs", true, [("note", "3")]⟩] }
    2 ⟨2, "eggs", true, [("note", "3")]⟩ (by decide)).1

/-- C5: for the record `t` that `id` identifies in the collection and the
edit buffer of the state, `updateTask(id)` sends one PUT to the task of that
id whose body has the buffer as title and `t.completed`, the flag of the
collection at the time of the call, as completed; whatever arrives, that PUT
stays the only one, followed by at most the List request; and in a Task
Store that holds the collection and replaces the record with the PUT body,
the record of that id has the completed flag it had. -/
theorem updateTask_keeps_completed (s : State) (id : Nat) (t : Task)
    (h : s.tasks.find? (fun task => task.id == id) = some t) :
    (updateTask id (Config.idle s)).sent
        = [⟨.PUT, .todo id, some ⟨none, s.editingText, t.completed, []⟩⟩] ∧
    (∀ replies : List (Option Response),
      (settle replies (updateTask id (Config.idle s))).sent
          = [⟨.PUT, .todo id, some ⟨none, s.editingText, t.completed, []⟩⟩] ∨
      (settle replies (updateTask id (Config.idle s))).sent
          = [⟨.PUT, .todo id, some ⟨none, s.editingText, t.completed, []⟩⟩, listRequest]) ∧
    ((storePut s.tasks id ⟨none, s.editingText, t.completed, []⟩).find?
        (fun task => task.id == id)).map (fun r => (r.title, r.completed))
      = some (s.editingText, t.completed) := by
  rw [updateTask_of_find s id t h]
  refine ⟨rfl, fun replies => settle_mutation_sent s _ .updateTask (by decide) replies, ?_⟩
  rw [find_storePut id ⟨none, s.editingText, t.completed, []⟩ rfl, h]
  rfl

theorem updateTask_keeps_completed_witness :
    (updateTask 2
        (Config.idle { State.initial with
          tasks := [⟨1, "milk", false, []⟩, ⟨2, "eggs", true, []⟩],
          editingId := some 2, editingText := "six eggs" })).sent
      = [⟨.PUT, .todo 2, some ⟨none, "six eggs", true, []⟩⟩] :=
  (updateTask_keeps_completed
    { State.initial with
      tasks := [⟨1, "milk", false, []⟩, ⟨2, "eggs", true, []⟩],
      editingId := some 2, editingText := "six eggs" }
    2 ⟨2, "eggs", true, []⟩ (by decide)).1

/-- C3: for the record `t` that `id` identifies in the collection, toggle
it, let the Task Store (which has a record of that id) replace the record
with the PUT body and acknowledge, let List return the content of the
store, and toggle again: the requests are the first PUT, the List request
and a second PUT whose body is the record `t` itself, with the completed
flag and the title it had at the start. -/
theorem toggleComplete_twice (s : State) (id : Nat) (t : Task) (store : List Task)
    (h : s.tasks.find? (fun task => task.id == id) = some t)
    (hstore : ∃ r ∈ store, r.id = id)
    (j : Option (List Task)) (ok : Bool) :
    (toggleComplete id
      (settle
        [some ⟨true, j⟩,
         some ⟨ok, some (storePut store id ⟨some t.id, t.title, !t.completed, t.rest⟩)⟩]
        (toggleComplete id (Config.idle s)))).sent
      = [⟨.PUT, .todo id, some ⟨some t.id, t.title, !t.completed, t.rest⟩⟩,
         listRequest,
         ⟨.PUT, .todo id, some (Body.ofTask t)⟩] := by
  have hid : t.id = id := id_of_find id t s.tasks h
  subst hid
  obtain ⟨r, hr⟩ := find_isSome_of_mem t.id store hstore
  have hfind : (storePut store t.id ⟨some t.id, t.title, !t.completed, t.rest⟩).find?
      (fun task => task.id == t.id) = some ⟨t.id, t.title, !t.completed, t.rest⟩ := by
    rw [find_storePut t.id ⟨some t.id, t.title, !t.completed, t.rest⟩ rfl, hr]
    rfl
  rw [toggleComplete_of_find s t.id t h]
  simp only [settle, Config.fetch, Config.idle, List.nil_append, resume,
    toggleComplete.resume, fetchTasks, fetchTasks.resume, if_true, toggleComplete, hfind,
    Body.ofTask, Bool.not_not, List.cons_append]

theorem toggleComplete_twice_witness :
    (toggleComplete 1
      (settle
        [some ⟨true, none⟩,
         some ⟨true, some (storePut [⟨1, "milk", false, []⟩] 1 ⟨some 1, "milk", true, []⟩)⟩]
        (toggleComplete 1
          (Config.idle { State.initial with tasks := [⟨1, "milk", false, []⟩] })))).sent
      = [⟨.PUT, .todo 1, some ⟨some 1, "milk", true, []⟩⟩,
         listRequest,
         ⟨.PUT, .todo 1, some (Body.ofTask ⟨1, "milk", false, []⟩)⟩] :=
  toggleComplete_twice { State.initial with tasks := [⟨1, "milk", false, []⟩] } 1
    ⟨1, "milk", false, []⟩ [⟨1, "milk", false, []⟩] (by decide) (by decide) none true

/-! ## Replies to a mutation -/

/-- C6: when the response to the mutation request is ok, the requests of
one handler run are the mutation request and then the List request, and no
other, whatever arrives afterwards: for `addTask` with a draft that is not
blank, for `updateTask` and `toggleComplete` with the id of a record of the
collection, and for `deleteTask` with any id. -/
theorem mutation_then_list (s : State) (j : Option (List Task))
    (replies : List (Option Response)) :
    (jsTrim s.editText ≠ "" →
      (settle (some ⟨true, j⟩ :: replies) (addTask (Config.idle s))).sent
        = [⟨.POST, .todos, some ⟨none, s.editText, false, []⟩⟩, listRequest]) ∧
    (∀ (id : Nat) (t : Task), s.tasks.find? (fun task => task.id == id) = some t →
      (settle (some ⟨true, j⟩ :: replies) (updateTask id (Config.idle s))).sent
        = [⟨.PUT, .todo id, some ⟨none, s.editingText, t.completed, []⟩⟩, listRequest]) ∧
    (∀ (id : Nat) (t : Task), s.tasks.find? (fun task => task.id == id) = some t →
      (settle (some ⟨true, j⟩ :: replies) (toggleComplete id (Config.idle s))).sent
        = [⟨.PUT, .todo id, some ⟨some t.id, t.title, !t.completed, t.rest⟩⟩, listRequest]) ∧
    (∀ id : Nat,
      (settle (some ⟨true, j⟩ :: replies) (deleteTask id (Config.idle s))).sent
        = [⟨.DELETE, .todo id, none⟩, listRequest]) := by
  refine ⟨?_, ?_, ?_, ?_⟩
  · intro h
    have ht : truthy (jsTrim s.editText) = true := by simpa [truthy] using h
    have h1 : addTask (Config.idle s)
        = (Config.idle s).fetch ⟨.POST, .todos, some ⟨none, s.editText, false, []⟩⟩
            .addTask := by
      simp [addTask, ht, Config.idle]
    rw [h1]
    exact settle_accepted_sent s _ .addTask (by decide) j replies
  · intro id t h
    rw [updateTask_of_find s id t h]
    exact settle_accepted_sent s _ .updateTask (by decide) j replies
  · intro id t h
    rw [toggleComplete_of_find s id t h]
    exact settle_accepted_sent s _ .toggleComplete (by decide) j replies
  · intro id
    exact settle_accepted_sent s _ .deleteTask (by decide) j replies

theorem mutation_then_list_witness :
    (settle [some ⟨true, none⟩, some ⟨true, some []⟩]
        (addTask (Config.idle
          { State.initial with tasks := [⟨1, "milk", false, []⟩], editText := "tea",
                               editingText := "oat milk" }))).sent
      = [⟨.POST, .todos, some ⟨none, "tea", false, []⟩⟩, listRequest] ∧
    (settle [some ⟨true, none⟩, some ⟨true, some []⟩]
        (updateTask 1 (Config.idle
          { State.initial with tasks := [⟨1, "milk", false, []⟩], editText := "tea",
                               editingText := "oat milk" }))).sent
      = [⟨.PUT, .todo 1, some ⟨none, "oat milk", false, []⟩⟩, listRequest] ∧
    (settle [some ⟨true, none⟩, some ⟨true, some []⟩]
        (toggleComplete 1 (Config.idle
          { State.initial with tasks := [⟨1, "milk", false, []⟩], editText := "tea",
                               editingText := "oat milk" }))).sent
      = [⟨.PUT, .todo 1, some ⟨some 1, "milk", true, []⟩⟩, listRequest] ∧
    (settle [some ⟨true, none⟩, some ⟨true, some []⟩]
        (deleteTask 1 (Config.idle
          { State.initial with tasks := [⟨1, "milk", false, []⟩], editText := "tea",
                               editingText := "oat milk" }))).sent
      = [⟨.DELETE, .todo 1, none⟩, listRequest] :=
  ⟨(mutation_then_list _ none [some ⟨true, some []⟩]).1 (by decide),
   (mutation_then_list _ none [some ⟨true, some []⟩]).2.1 1 ⟨1, "milk", false, []⟩
     (by decide),
   (mutation_then_list _ none [some ⟨true, some []⟩]).2.2.1 1 ⟨1, "milk", false, []⟩
     (by decide),
   (mutation_then_list _ none [some ⟨true, some []⟩]).2.2.2 1⟩

/-- C7: when the response to the mutation request is not ok, each of
`addTask`, `updateTask`, `toggleComplete` and `deleteTask` sends no List
request and leaves the state as it was in every field: the collection, the
draft, the edit buffer, the edit id, the filter and the dark-mode flag. -/
theorem rejected_mutation_no_effect (s : State) (id : Nat) (j : Option (List Task))
    (replies : List (Option Response)) :
    NoEffect s (settle (some ⟨false, j⟩ :: replies) (addTask (Config.idle s))) ∧
    NoEffect s (settle (some ⟨false, j⟩ :: replies) (updateTask id (Config.idle s))) ∧
    NoEffect s (settle (some ⟨false, j⟩ :: replies) (toggleComplete id (Config.idle s))) ∧
    NoEffect s (settle (some ⟨false, j⟩ :: replies) (deleteTask id (Config.idle s))) := by
  have hfetch : ∀ (req : Request) (k : Awaiting), k ≠ .fetchTasks → req.method ≠ .GET →
      NoEffect s (settle (some ⟨false, j⟩ :: replies) ((Config.idle s).fetch req k)) := by
    intro req k hk hm
    rw [settle_rejected s req k hk j replies]
    refine ⟨rfl, ?_, rfl⟩
    intro hmem
    have : listRequest = req := by simpa using hmem
    exact hm (this ▸ rfl)
  have hidle : ∀ c : Config, c.ui = s → c.sent = [] → c.inflight = [] →
      NoEffect s (settle (some ⟨false, j⟩ :: replies) c) := by
    intro c hui hsent hin
    rw [settle_of_inflight_nil _ c hin]
    exact ⟨hui, by simp [hsent], hin⟩
  refine ⟨?_, ?_, ?_, ?_⟩
  · by_cases ht : truthy (jsTrim s.editText) = true
    · have h1 : addTask (Config.idle s)
          = (Config.idle s).fetch ⟨.POST, .todos, some ⟨none, s.editText, false, []⟩⟩
              .addTask := by
        simp [addTask, ht, Config.idle]
      rw [h1]
      exact hfetch _ _ (by decide) (by simp)
    · have h1 : addTask (Config.idle s) = Config.idle s := by
        simp [addTask, ht, Config.idle]
      rw [h1]
      exact hidle _ rfl rfl rfl
  · cases h : s.tasks.find? (fun task => task.id == id) with
    | some t =>
      rw [updateTask_of_find s id t h]
      exact hfetch _ _ (by decide) (by simp)
    | none =>
      have h1 : updateTask id (Config.idle s) = { Config.idle s with uncaught := 1 } := by
        simp [updateTask, Config.idle, h]
      rw [h1]
      exact hidle _ rfl rfl rfl
  · cases h : s.tasks.find? (fun task => task.id == id) with
    | some t =>
      rw [toggleComplete_of_find s id t h]
      exact hfetch _ _ (by decide) (by simp)
    | none =>
      have h1 : toggleComplete id (Config.idle s) = { Config.idle s with uncaught := 1 } := by
        simp [toggleComplete, Config.idle, h]
      rw [h1]
      exact hidle _ rfl rfl rfl
  · exact hfetch _ _ (by decide) (by simp)

theorem rejected_mutation_no_effect_witness :
    NoEffect { State.initial with tasks := [⟨1, "milk", false, []⟩], editText := "tea",
                                  editingId := some 1, editingText := "oat milk" }
      (settle [some ⟨false, none⟩]
        (updateTask 1 (Config.idle
          { State.initial with tasks := [⟨1, "milk", false, []⟩], editText := "tea",
                               editingId := some 1, editingText := "oat milk" }))) :=
  (rejected_mutation_no_effect _ 1 none []).2.1

/-! ## Commit-edit without an active edit -/

/-- C8 fails as stated: with the one task 1 "milk" and no active edit
(`editingId` null, empty edit buffer), `updateTask(1)` sends a PUT whose
title is the empty buffer, which a Task Store that replaces the record with
the PUT body persists in place of "milk"; when the response is ok and List
returns the content of that store, the collection of the state is no longer
the one before the call; and `updateTask(2)`, for an id that is not in the
collection, raises an error that nothing catches. -/
theorem updateTask_unguarded_counterexample :
    ({ State.initial with tasks := [⟨1, "milk", false, []⟩] } : State).editingId = none ∧
    ({ State.initial with tasks := [⟨1, "milk", false, []⟩] } : State).editingText = "" ∧
    (updateTask 1
        (Config.idle { State.initial with tasks := [⟨1, "milk", false, []⟩] })).sent
      = [⟨.PUT, .todo 1, some ⟨none, "", false, []⟩⟩] ∧
    storePut [⟨1, "milk", false, []⟩] 1 ⟨none, "", false, []⟩ = [⟨1, "", false, []⟩] ∧
    (settle [some ⟨true, none⟩, some ⟨true, some [⟨1, "", false, []⟩]⟩]
        (updateTask 1
          (Config.idle { State.initial with tasks := [⟨1, "milk", false, []⟩] }))).ui
      ≠ { State.initial with tasks := [⟨1, "milk", false, []⟩] } ∧
    (updateTask 2
        (Config.idle { State.initial with tasks := [⟨1, "milk", false, []⟩] })).uncaught
      = 1 := by
  decide

/-- C8, amended: `updateTask` has no guard on the active edit.  For every
state with no active edit and the record `t` that `id` identifies in the
collection, `updateTask(id)` raises no error and sends one PUT to the task
of that id whose body has the empty edit buffer as title and `t.completed`
as completed, the state being as before while the reply is awaited; on a
response that is not ok the state stays as it was and no List request is
sent; called twice in a row before a reply arrives, it sends that same PUT
twice, and a Task Store that replaces the record with the PUT body holds
after the two what it holds after the first. -/
theorem updateTask_unguarded (s : State) (id : Nat) (t : Task)
    (_hid : s.editingId = none) (htext : s.editingText = "")
    (h : s.tasks.find? (fun task => task.id == id) = some t) :
    updateTask id (Config.idle s)
      = { Config.idle s with
          inflight := [(⟨.PUT, .todo id, some ⟨none, "", t.completed, []⟩⟩, .updateTask)],
          sent := [⟨.PUT, .todo id, some ⟨none, "", t.completed, []⟩⟩] } ∧
    (∀ (j : Option (List Task)) (replies : List (Option Response)),
      settle (some ⟨false, j⟩ :: replies) (updateTask id (Config.idle s))
        = { Config.idle s with sent := [⟨.PUT, .todo id, some ⟨none, "", t.completed, []⟩⟩] }) ∧
    (updateTask id (updateTask id (Config.idle s))).sent
      = [⟨.PUT, .todo id, some ⟨none, "", t.completed, []⟩⟩,
         ⟨.PUT, .todo id, some ⟨none, "", t.completed, []⟩⟩] ∧
    (updateTask id (updateTask id (Config.idle s))).uncaught = 0 ∧
    (∀ store : List Task,
      storePut (storePut store id ⟨none, "", t.completed, []⟩) id ⟨none, "", t.completed, []⟩
        = storePut store id ⟨none, "", t.completed, []⟩) := by
  have h1 := updateTask_of_find s id t h
  rw [htext] at h1
  refine ⟨?_, ?_, ?_, ?_, ?_⟩
  · rw [h1]; rfl
  · intro j replies
    rw [h1]
    exact settle_rejected s _ .updateTask (by decide) j replies
  · rw [h1]
    simp [updateTask, Config.fetch, Config.idle, h, htext]
  · rw [h1]
    simp [updateTask, Config.fetch, Config.idle, h, htext]
  · intro store
    exact storePut_storePut id ⟨none, "", t.completed, []⟩ rfl store

theorem updateTask_unguarded_witness :
    (updateTask 1 (updateTask 1
        (Config.idle { State.initial with tasks := [⟨1, "milk", true, []⟩] }))).sent
      = [⟨.PUT, .todo 1, some ⟨none, "", true, []⟩⟩,
         ⟨.PUT, .todo 1, some ⟨none, "", true, []⟩⟩] :=
  (updateTask_unguarded { State.initial with tasks := [⟨1, "milk", true, []⟩] } 1
    ⟨1, "milk", true, []⟩ rfl rfl (by decide)).2.2.1

/-! ## The collection is what List returned -/

/-- C10: after any events on the mounted screen, the collection is the
initial empty list or the payload of a List response that arrived at some
point of the run; one more event leaves the collection as it is unless it
is the arrival of a List response (so typing, begin-edit, the filter, the
dark-mode switch, the four handlers and the replies to their mutation
requests all leave it as it is); and a fetch-all that fails, by a rejected
`fetch` or a body that does not parse, leaves it as it is. -/
theorem tasks_only_from_list (es : List Event) :
    ((run es).ui.tasks = [] ∨
      ∃ es₁ e es₂, es = es₁ ++ e :: es₂ ∧ ListArrival (run es₁) e (run es).ui.tasks) ∧
    (∀ e : Event, (step (run es) e).ui.tasks = (run es).ui.tasks ∨
      ListArrival (run es) e (step (run es) e).ui.tasks) ∧
    (∀ (i : Nat) (response : Option Response),
      (∀ r, response = some r → r.json = none) →
      (step (run es) (.reply i response)).ui.tasks = (run es).ui.tasks) := by
  refine ⟨?_, fun e => step_tasks (run es) e (fetchesList_run es), ?_⟩
  · induction es using List.reverseRecOn with
    | nil => exact Or.inl rfl
    | append_singleton es e ih =>
      rw [run_concat]
      rcases step_tasks (run es) e (fetchesList_run es) with hsame | harr
      · rw [hsame]
        rcases ih with h0 | ⟨es₁, e', es₂, hes, h1⟩
        · exact Or.inl h0
        · refine Or.inr ⟨es₁, e', es₂ ++ [e], ?_, h1⟩
          rw [hes]
          simp
      · exact Or.inr ⟨es, e, [], rfl, harr⟩
  · intro i response hfail
    rcases step_tasks (run es) (.reply i response) (fetchesList_run es) with hsame | harr
    · exact hsame
    · obtain ⟨i', r, he, _, hj⟩ := harr
      have hr : response = some r := by
        injection he with _ h2
      rw [hfail r hr] at hj
      exact absurd hj (by simp)

theorem tasks_only_from_list_witness :
    (step (run [.changeDraft "milk", .pressAdd, .reply 1 (some ⟨true, none⟩)])
        (.reply 0 none)).ui.tasks
      = (run [.changeDraft "milk", .pressAdd, .reply 1 (some ⟨true, none⟩)]).ui.tasks :=
  (tasks_only_from_list [.changeDraft "milk", .pressAdd, .reply 1 (some ⟨true, none⟩)]).2.2
    0 none (fun _ h => by cases h)

end TodoList
